import Mathlib

/-!
Shallow embedding of the task-tracker HTTP service (src/server.js).

The service keeps three pieces of mutable state: a list `users`, a list
`tasks`, and an integer counter `taskId` starting at 1.  Each HTTP handler
is modelled as a pure function from the current state (plus the request
payload) to the next state paired with the HTTP response.  Password hashing
(`bcrypt.hash`) and verification (`bcrypt.compare`) are modelled as
parameters, since their outputs are salted/nondeterministic; nothing in the
handlers inspects hash internals.  `parseInt` on the `:id` path parameter is
modelled faithfully after ECMAScript `parseInt` with an undefined radix:
leading whitespace is skipped, an optional sign is read, a `0x`/`0X` prefix
selects radix 16, the longest prefix of radix digits is converted, and the
absence of any digit yields NaN (modelled as `none`), which compares unequal
to every task id.
-/

namespace TaskTracker

/-- A JavaScript value, as far as the task-description field is concerned:
the body field `task` is never validated, so it can be absent (`undef`) or
any non-string value. -/
inductive JSVal where
  | undef : JSVal
  | nullv : JSVal
  | str : String → JSVal
  | num : Int → JSVal
  | boolean : Bool → JSVal
deriving DecidableEq, Repr

/-- A user record: `username` and the stored (hashed) password, as pushed by
the `/register` handler. -/
structure User where
  username : String
  password : String
deriving DecidableEq, Repr

/-- A task record with the four fields the handlers create and serve:
`id`, `username`, `task` (the free-text description) and `status`. -/
structure Task where
  id : Nat
  username : String
  task : JSVal
  status : String
deriving DecidableEq, Repr

/-- The server's mutable state: the `users` list, the `tasks` list and the
`taskId` counter (`let users = []; let tasks = []; let taskId = 1;`). -/
structure ServerState where
  users : List User
  tasks : List Task
  taskId : Nat
deriving DecidableEq, Repr

/-- The state at process start. -/
def initState : ServerState := { users := [], tasks := [], taskId := 1 }

/-- An HTTP response body: plain text (`res.send`) or a JSON array of tasks
(`res.json(userTasks)`). -/
inductive Body where
  | text : String → Body
  | json : List Task → Body
deriving DecidableEq, Repr

/-- An HTTP response: status code and body.  `res.send(x)` without an
explicit status is status 200. -/
structure Response where
  status : Nat
  body : Body
deriving DecidableEq, Repr

/-- `users.find(user => user.username === username)`. -/
def findUser (users : List User) (username : String) : Option User :=
  users.find? (fun user => user.username == username)

/-- Handler for `POST /register` (src/server.js:113-124).  The password is
hashed first (`await bcrypt.hash(password, 8)`, modelled by the `hash`
parameter); a duplicate username is rejected with 400, otherwise the new
record is appended and 201 returned. -/
def register (hash : String → String) (s : ServerState)
    (username password : String) : ServerState × Response :=
  let hashedPassword := hash password
  match findUser s.users username with
  | some _ => (s, { status := 400, body := Body.text "User already exists" })
  | none =>
      ({ s with users := s.users ++ [{ username := username, password := hashedPassword }] },
       { status := 201, body := Body.text "User registered" })

/-- Handler for `POST /login` (src/server.js:144-153).  `verify p h` models
`await bcrypt.compare(p, h)`.  A missing user or a failed comparison both
yield the same 400 response; success is 200 and no state is touched. -/
def login (verify : String → String → Bool) (s : ServerState)
    (username password : String) : ServerState × Response :=
  match findUser s.users username with
  | none => (s, { status := 400, body := Body.text "Invalid credentials" })
  | some user =>
      if verify password user.password then
        (s, { status := 200, body := Body.text "Logged in successfully" })
      else
        (s, { status := 400, body := Body.text "Invalid credentials" })

/-- Handler for `POST /task` (src/server.js:181-191).  If the username is
unregistered the request fails with 400 and nothing changes; otherwise
`{ id: taskId++, username, task, status: 'backlog' }` is pushed. -/
def createTask (s : ServerState) (username : String) (task : JSVal) :
    ServerState × Response :=
  match findUser s.users username with
  | none => (s, { status := 400, body := Body.text "User not found" })
  | some _ =>
      ({ s with
          tasks := s.tasks ++
            [{ id := s.taskId, username := username, task := task, status := "backlog" }],
          taskId := s.taskId + 1 },
       { status := 201, body := Body.text "Task added" })

/-- The numeric value of a character as a digit in bases up to 36, as
ECMAScript `parseInt` accepts: code points 48-57 are `0`-`9`, 97-122 are
`a`-`z` (value 10-35), 65-90 are `A`-`Z` (value 10-35). -/
def charDigitValue (c : Char) : Option Nat :=
  if 48 ≤ c.toNat ∧ c.toNat ≤ 57 then some (c.toNat - 48)
  else if 97 ≤ c.toNat ∧ c.toNat ≤ 122 then some (c.toNat - 97 + 10)
  else if 65 ≤ c.toNat ∧ c.toNat ≤ 90 then some (c.toNat - 65 + 10)
  else none

/-- Decimal digit test (code points 48-57, i.e. `0`-`9`). -/
def isDigitChar (c : Char) : Bool :=
  decide (48 ≤ c.toNat ∧ c.toNat ≤ 57)

/-- Converts the longest prefix of digits of the given radix, accumulating
into `acc`; `seen` records whether at least one digit has been read.  If no
digit is read the result is `none` (ECMAScript NaN). -/
def takeDigits (radix : Nat) : List Char → Nat → Bool → Option Nat
  | [], acc, seen => if seen then some acc else none
  | c :: rest, acc, seen =>
      match charDigitValue c with
      | some d =>
          if d < radix then takeDigits radix rest (acc * radix + d) true
          else if seen then some acc else none
      | none => if seen then some acc else none

/-- Whitespace characters `parseInt` skips: tab, LF, VT, FF, CR, space,
no-break space and BOM. -/
def isJsWhitespace (c : Char) : Bool :=
  c == ' ' || c == '\t' || c == '\n' || c == '\r' ||
  c == Char.ofNat 11 || c == Char.ofNat 12 || c == Char.ofNat 160 ||
  c == Char.ofNat 0xFEFF

/-- The unsigned part of `parseInt` with undefined radix: a `0x`/`0X`
prefix selects radix 16, otherwise radix 10. -/
def parseUnsigned (cs : List Char) : Option Nat :=
  match cs with
  | c0 :: c1 :: rest =>
      if c0 = '0' ∧ (c1 = 'x' ∨ c1 = 'X') then takeDigits 16 rest 0 false
      else takeDigits 10 cs 0 false
  | _ => takeDigits 10 cs 0 false

/-- The character-list core of `parseInt`: skip whitespace, read an
optional sign, then the unsigned part. -/
def parseIntList (cs : List Char) : Option Int :=
  match cs.dropWhile isJsWhitespace with
  | [] => none
  | c :: rest =>
      if c = '-' then (parseUnsigned rest).map (fun n => -(n : Int))
      else if c = '+' then (parseUnsigned rest).map (fun n => (n : Int))
      else (parseUnsigned (c :: rest)).map (fun n => (n : Int))

/-- ECMAScript `parseInt(string)` (radix undefined), returning `none` for
NaN. -/
def parseIntJS (str : String) : Option Int :=
  parseIntList str.toList

/-- The integer named by a string of decimal digits. -/
def digitsToNat (s : String) : Nat :=
  s.toList.foldl (fun a c => a * 10 + (c.toNat - 48)) 0

/-- `task.id === parseInt(id)`: `none` models NaN, which compares unequal
to everything. -/
def pidMatches (pid : Option Int) (t : Task) : Bool :=
  match pid with
  | none => false
  | some n => (t.id : Int) == n

/-- The four legal statuses, in the order the handler lists them. -/
def validStatuses : List String := ["backlog", "inProgress", "done", "onAccess"]

/-- `tasks.find(...)` followed by `task.status = status`: replaces the
status of the first task matching the parsed id, leaving the rest alone. -/
def setStatusFirst (ts : List Task) (pid : Option Int) (status : String) : List Task :=
  match ts with
  | [] => []
  | t :: rest =>
      if pidMatches pid t then { t with status := status } :: rest
      else t :: setStatusFirst rest pid status

/-- Handler for `PATCH /task/:id` (src/server.js:223-238).  The task is
looked up by `parseInt(id)` first: a missing task is 404 regardless of the
status value; an invalid status on an existing task is 400 with no
mutation; otherwise the found task's status is overwritten and 200
returned. -/
def updateTask (s : ServerState) (idStr status : String) : ServerState × Response :=
  match s.tasks.find? (pidMatches (parseIntJS idStr)) with
  | none => (s, { status := 404, body := Body.text "Task not found" })
  | some _ =>
      if validStatuses.contains status then
        ({ s with tasks := setStatusFirst s.tasks (parseIntJS idStr) status },
         { status := 200, body := Body.text "Task updated" })
      else
        (s, { status := 400, body := Body.text "Invalid status" })

/-- Handler for `DELETE /task/:id` (src/server.js:259-269).
`tasks = tasks.filter(task => task.id !== parseInt(id))`, then 404 if the
length did not change, else 200. -/
def deleteTask (s : ServerState) (idStr : String) : ServerState × Response :=
  if (s.tasks.filter (fun t => !(pidMatches (parseIntJS idStr) t))).length = s.tasks.length then
    ({ s with tasks := s.tasks.filter (fun t => !(pidMatches (parseIntJS idStr) t)) },
     { status := 404, body := Body.text "Task not found or already deleted" })
  else
    ({ s with tasks := s.tasks.filter (fun t => !(pidMatches (parseIntJS idStr) t)) },
     { status := 200, body := Body.text "Task deleted" })

/-- Handler for `GET /tasks` (src/server.js:296-305).  An unregistered
username is 400; otherwise the tasks whose `username` field matches are
returned as a JSON array in collection order (a 200 even when empty). -/
def listTasks (s : ServerState) (username : String) : ServerState × Response :=
  match findUser s.users username with
  | none => (s, { status := 400, body := Body.text "User not found" })
  | some _ =>
      (s, { status := 200,
            body := Body.json (s.tasks.filter (fun t => t.username == username)) })

/-- One client request, for reasoning about sequences of operations. -/
inductive Op where
  | register : String → String → Op
  | login : String → String → Op
  | createTask : String → JSVal → Op
  | updateTask : String → String → Op
  | deleteTask : String → Op
  | listTasks : String → Op
deriving DecidableEq, Repr

/-- Dispatches one request to its handler. -/
def step (hash : String → String) (verify : String → String → Bool)
    (s : ServerState) : Op → ServerState × Response
  | Op.register u p => register hash s u p
  | Op.login u p => login verify s u p
  | Op.createTask u v => createTask s u v
  | Op.updateTask i st => updateTask s i st
  | Op.deleteTask i => deleteTask s i
  | Op.listTasks u => listTasks s u

/-- Runs a sequence of requests from a state. -/
def run (hash : String → String) (verify : String → String → Bool)
    (s : ServerState) : List Op → ServerState
  | [] => s
  | op :: ops => run hash verify (step hash verify s op).1 ops

/-- The task ids handed out along a run: the counter value at each step
that bumps the counter (exactly the successful task creations). -/
def assignedIds (hash : String → String) (verify : String → String → Bool)
    (s : ServerState) : List Op → List Nat
  | [] => []
  | op :: ops =>
      (if (step hash verify s op).1.taskId = s.taskId + 1 then [s.taskId] else []) ++
        assignedIds hash verify (step hash verify s op).1 ops

/-! Helper lemmas about the store lookups. -/

theorem findUser_eq_none_iff (users : List User) (username : String) :
    findUser users username = none ↔ ∀ u ∈ users, u.username ≠ username := by
  simp [findUser, List.find?_eq_none]

theorem findUser_some_spec (users : List User) (username : String) (u : User)
    (h : findUser users username = some u) : u ∈ users ∧ u.username = username := by
  refine ⟨List.mem_of_find?_eq_some h, ?_⟩
  have := List.find?_some h
  simpa using this

/-- Concrete stand-ins for `bcrypt.hash` and `bcrypt.compare`, used by the
closed witness statements. -/
def hashDemo (p : String) : String := "#" ++ p

/-- Concrete verifier matching `hashDemo`. -/
def verifyDemo (p h : String) : Bool := h == "#" ++ p

/-- A two-user, two-task state used by the closed witness statements. -/
def demoState : ServerState :=
  { users := [{ username := "alice", password := "#pw1" },
              { username := "bob", password := "#pw2" }],
    tasks := [{ id := 1, username := "alice", task := JSVal.str "buy milk", status := "backlog" },
              { id := 2, username := "bob", task := JSVal.str "ship it", status := "done" }],
    taskId := 3 }

/-- C1: creating a task for an unregistered username returns 400
`UserNotFound` and leaves the task collection and the counter unchanged;
for a registered username it appends a task carrying the current counter
value as `id` and status `backlog`, increments the counter, and returns
201. -/
theorem createTask_spec (s : ServerState) (username : String) (v : JSVal) :
    ((∀ u ∈ s.users, u.username ≠ username) →
      createTask s username v = (s, { status := 400, body := Body.text "User not found" })) ∧
    ((∃ u ∈ s.users, u.username = username) →
      createTask s username v =
        ({ users := s.users,
           tasks := s.tasks ++
             [{ id := s.taskId, username := username, task := v, status := "backlog" }],
           taskId := s.taskId + 1 },
         { status := 201, body := Body.text "Task added" })) := by
  constructor
  · intro h
    have hf : findUser s.users username = none := (findUser_eq_none_iff _ _).2 h
    unfold createTask
    rw [hf]
  · rintro ⟨u, hu, hname⟩
    cases hf : findUser s.users username with
    | none => exact absurd hname ((findUser_eq_none_iff _ _).1 hf u hu)
    | some w =>
        unfold createTask
        rw [hf]

/-- C1 witness: both branches of `createTask_spec` at concrete inputs. -/
theorem createTask_spec_witness :
    createTask demoState "carol" JSVal.undef =
      (demoState, { status := 400, body := Body.text "User not found" }) ∧
    createTask demoState "alice" (JSVal.str "water plants") =
      ({ users := demoState.users,
         tasks := demoState.tasks ++
           [{ id := 3, username := "alice", task := JSVal.str "water plants",
              status := "backlog" }],
         taskId := 4 },
       { status := 201, body := Body.text "Task added" }) :=
  ⟨(createTask_spec demoState "carol" JSVal.undef).1 (by decide),
   (createTask_spec demoState "alice" (JSVal.str "water plants")).2 (by decide)⟩

/-- C2: listing tasks for an unregistered username returns 400
`UserNotFound`; for a registered username it returns 200 with the JSON
array of exactly the tasks whose `username` field matches, in collection
order (an order-preserving sublist), and an empty array is a valid 200
result. -/
theorem listTasks_spec (s : ServerState) (username : String) :
    ((∀ u ∈ s.users, u.username ≠ username) →
      listTasks s username = (s, { status := 400, body := Body.text "User not found" })) ∧
    ((∃ u ∈ s.users, u.username = username) →
      listTasks s username =
        (s, { status := 200,
              body := Body.json (s.tasks.filter (fun t => t.username == username)) }) ∧
      (s.tasks.filter (fun t => t.username == username)).Sublist s.tasks ∧
      (∀ t, t ∈ s.tasks.filter (fun t => t.username == username) ↔
        t ∈ s.tasks ∧ t.username = username)) := by
  constructor
  · intro h
    have hf : findUser s.users username = none := (findUser_eq_none_iff _ _).2 h
    unfold listTasks
    rw [hf]
  · rintro ⟨u, hu, hname⟩
    cases hf : findUser s.users username with
    | none => exact absurd hname ((findUser_eq_none_iff _ _).1 hf u hu)
    | some w =>
        refine ⟨?_, List.filter_sublist _, ?_⟩
        · unfold listTasks
          rw [hf]
        · intro t
          simp [List.mem_filter]

/-- A one-user, zero-task state used by the closed witness statements. -/
def carolState : ServerState :=
  { users := [{ username := "carol", password := "#pw" }], tasks := [], taskId := 1 }

/-- C2 witness: a registered user with zero matching tasks gets 200 with
an empty array, and an unknown user gets 400, at concrete inputs. -/
theorem listTasks_spec_witness :
    listTasks carolState "carol" =
      (carolState, { status := 200, body := Body.json [] }) ∧
    listTasks demoState "dave" =
      (demoState, { status := 400, body := Body.text "User not found" }) :=
  ⟨((listTasks_spec carolState "carol").2 (by decide)).1,
   (listTasks_spec demoState "dave").1 (by decide)⟩

/-- C7: registering an already-present username (exact string match)
returns 400 `DuplicateUser` and leaves the user collection unchanged, so a
second attempt after a fresh registration leaves exactly one entry for the
name; a fresh registration appends one record holding the hash of the
password (never the plaintext, provided hashing is not the identity) and
returns 201. -/
theorem register_spec (hash : String → String) (s : ServerState)
    (username password : String) :
    ((∃ u ∈ s.users, u.username = username) →
      register hash s username password =
        (s, { status := 400, body := Body.text "User already exists" })) ∧
    ((∀ u ∈ s.users, u.username ≠ username) →
      register hash s username password =
        ({ s with users := s.users ++ [{ username := username, password := hash password }] },
         { status := 201, body := Body.text "User registered" })) ∧
    ((s.users.filter (fun u => u.username == username)).length = 0 →
      (register hash (register hash s username password).1 username password).2 =
        { status := 400, body := Body.text "User already exists" } ∧
      ((register hash (register hash s username password).1 username password).1.users.filter
          (fun u => u.username == username)).length = 1) ∧
    ((∀ p, hash p ≠ p) →
      ∀ u ∈ (register hash s username password).1.users, u ∈ s.users ∨ u.password ≠ password) := by
  have hpos : ∀ (t : ServerState), ∀ u ∈ t.users, u.username = username →
      register hash t username password =
        (t, { status := 400, body := Body.text "User already exists" }) := by
    intro t u hu hname
    cases hf : findUser t.users username with
    | none => exact absurd hname ((findUser_eq_none_iff _ _).1 hf u hu)
    | some w =>
        unfold register
        rw [hf]
  have hneg : ∀ (t : ServerState), (∀ u ∈ t.users, u.username ≠ username) →
      register hash t username password =
        ({ t with users := t.users ++ [{ username := username, password := hash password }] },
         { status := 201, body := Body.text "User registered" }) := by
    intro t h
    have hf : findUser t.users username = none := (findUser_eq_none_iff _ _).2 h
    unfold register
    rw [hf]
  refine ⟨fun ⟨u, hu, hname⟩ => hpos s u hu hname, hneg s, ?_, ?_⟩
  · intro hcount
    have hnone : ∀ u ∈ s.users, u.username ≠ username := by
      intro u hu hname
      have hmemf : u ∈ s.users.filter (fun u => u.username == username) := by
        simp [List.mem_filter, hu, hname]
      rw [List.length_eq_zero] at hcount
      simp [hcount] at hmemf
    rw [hneg s hnone]
    have hmem : ({ username := username, password := hash password } : User) ∈
        ({ s with users := s.users ++ [{ username := username, password := hash password }] } :
          ServerState).users := by
      simp
    have hsecond := hpos _ _ hmem rfl
    rw [hsecond]
    refine ⟨rfl, ?_⟩
    simp only [List.filter_append, List.length_append]
    have h2 : (([{ username := username, password := hash password }] : List User).filter
        (fun u => u.username == username)).length = 1 := by
      simp [List.filter]
    omega
  · intro hnontriv u hu
    unfold register at hu
    cases hf : findUser s.users username with
    | none =>
        rw [hf] at hu
        simp only at hu
        rcases (List.mem_append).1 hu with h | h
        · exact Or.inl h
        · simp at h
          refine Or.inr ?_
          rw [h]
          exact hnontriv password
    | some w =>
        rw [hf] at hu
        exact Or.inl hu

/-- C7 witness: registering `"alice"` twice into the empty store leaves
one entry and a 400 on the second attempt; the stored password is the
hash, not the plaintext. -/
theorem register_spec_witness :
    (register hashDemo (register hashDemo initState "alice" "pw1").1 "alice" "pw1").2 =
      { status := 400, body := Body.text "User already exists" } ∧
    ((register hashDemo (register hashDemo initState "alice" "pw1").1 "alice" "pw1").1.users.filter
        (fun u => u.username == "alice")).length = 1 ∧
    (∀ u ∈ (register hashDemo initState "alice" "pw1").1.users,
      u ∈ initState.users ∨ u.password ≠ "pw1") := by
  have h := register_spec hashDemo initState "alice" "pw1"
  have hlen : ∀ p : String, hashDemo p ≠ p := by
    intro p hp
    have hl := congrArg String.length hp
    rw [hashDemo, String.length_append] at hl
    have h1 : ("#" : String).length = 1 := rfl
    rw [h1] at hl
    omega
  refine ⟨(h.2.2.1 (by decide)).1, (h.2.2.1 (by decide)).2, h.2.2.2 hlen⟩

/-- C8: login fails with the one fixed 400 response exactly when the
username is unregistered or the password fails verification — the two
failure cases are literally the same response — succeeds with 200
otherwise, and never changes the store. -/
theorem login_spec (verify : String → String → Bool) (s : ServerState)
    (username password : String) :
    ((login verify s username password).1 = s) ∧
    ((login verify s username password).2 =
        { status := 400, body := Body.text "Invalid credentials" } ↔
      (∀ u ∈ s.users, u.username ≠ username) ∨
      (∃ u, findUser s.users username = some u ∧ verify password u.password = false)) ∧
    (¬ ((∀ u ∈ s.users, u.username ≠ username) ∨
        (∃ u, findUser s.users username = some u ∧ verify password u.password = false)) →
      login verify s username password =
        (s, { status := 200, body := Body.text "Logged in successfully" })) ∧
    (∀ (s' : ServerState) (username' password' : String),
      (∀ u ∈ s.users, u.username ≠ username) →
      (∃ u, findUser s'.users username' = some u ∧ verify password' u.password = false) →
      (login verify s username password).2 = (login verify s' username' password').2) := by
  have key : ∀ (t : ServerState) (un pw : String),
      (login verify t un pw).1 = t ∧
      ((login verify t un pw).2 =
          { status := 400, body := Body.text "Invalid credentials" } ↔
        (∀ u ∈ t.users, u.username ≠ un) ∨
        (∃ u, findUser t.users un = some u ∧ verify pw u.password = false)) ∧
      (¬ ((∀ u ∈ t.users, u.username ≠ un) ∨
          (∃ u, findUser t.users un = some u ∧ verify pw u.password = false)) →
        login verify t un pw =
          (t, { status := 200, body := Body.text "Logged in successfully" })) := by
    intro t un pw
    cases hf : findUser t.users un with
    | none =>
        have hnone := (findUser_eq_none_iff _ _).1 hf
        have hred : login verify t un pw =
            (t, { status := 400, body := Body.text "Invalid credentials" }) := by
          unfold login
          rw [hf]
        rw [hred]
        exact ⟨rfl, ⟨fun _ => Or.inl hnone, fun _ => rfl⟩,
          fun hcon => absurd (Or.inl hnone) hcon⟩
    | some u =>
        cases hv : verify pw u.password with
        | false =>
            have hred : login verify t un pw =
                (t, { status := 400, body := Body.text "Invalid credentials" }) := by
              unfold login
              rw [hf]
              simp [hv]
            rw [hred]
            exact ⟨rfl, ⟨fun _ => Or.inr ⟨u, rfl, hv⟩, fun _ => rfl⟩,
              fun hcon => absurd (Or.inr ⟨u, rfl, hv⟩) hcon⟩
        | true =>
            have hred : login verify t un pw =
                (t, { status := 200, body := Body.text "Logged in successfully" }) := by
              unfold login
              rw [hf]
              simp [hv]
            rw [hred]
            refine ⟨rfl, ⟨fun habs => ?_, fun hdisj => ?_⟩, fun _ => rfl⟩
            · exact absurd habs (by simp)
            · rcases hdisj with h | ⟨w, hw, hwv⟩
              · exact absurd (findUser_some_spec _ _ _ hf).2
                  (h u (findUser_some_spec _ _ _ hf).1)
              · cases hw
                rw [hv] at hwv
                simp at hwv
  refine ⟨(key s username password).1, (key s username password).2.1,
    (key s username password).2.2, ?_⟩
  intro s' username' password' h1 h2
  have e1 : (login verify s username password).2 =
      { status := 400, body := Body.text "Invalid credentials" } :=
    (key s username password).2.1.2 (Or.inl h1)
  have e2 : (login verify s' username' password').2 =
      { status := 400, body := Body.text "Invalid credentials" } :=
    (key s' username' password').2.1.2 (Or.inr h2)
  rw [e1, e2]

/-- C8 witness: at concrete inputs, an unknown username and a wrong
password produce the very same response, login succeeds on the right
password, and the store is untouched. -/
theorem login_spec_witness :
    (login verifyDemo demoState "mallory" "pw1").2 =
      (login verifyDemo demoState "alice" "wrong").2 ∧
    (login verifyDemo demoState "alice" "pw1") =
      (demoState, { status := 200, body := Body.text "Logged in successfully" }) ∧
    (login verifyDemo demoState "mallory" "pw1").1 = demoState := by
  have h := login_spec verifyDemo demoState "alice" "pw1"
  refine ⟨(login_spec verifyDemo demoState "mallory" "pw1").2.2.2 demoState "alice" "wrong"
      (by decide) ⟨{ username := "alice", password := "#pw1" }, by decide, by decide⟩,
    h.2.2.1 ?_, (login_spec verifyDemo demoState "mallory" "pw1").1⟩
  rintro (hcon | ⟨u, hu, hv⟩)
  · exact hcon { username := "alice", password := "#pw1" } (by decide) (by decide)
  · have : u = { username := "alice", password := "#pw1" } := by
      have : findUser demoState.users "alice" =
          some { username := "alice", password := "#pw1" } := by decide
      rw [this] at hu
      cases hu
      rfl
    rw [this] at hv
    exact absurd hv (by decide)

/-! Lemmas about id matching and status replacement. -/

theorem pidMatches_eq_true_iff (pid : Option Int) (t : Task) :
    pidMatches pid t = true ↔ pid = some (t.id : Int) := by
  cases pid with
  | none => simp [pidMatches]
  | some n =>
      simp only [pidMatches, beq_iff_eq, Option.some.injEq]
      exact ⟨fun h => h.symm, fun h => h.symm⟩

theorem setStatusFirst_eq_map (ts : List Task) (t : Task) (st : String)
    (hw : ts.Pairwise (fun a b => a.id ≠ b.id)) (ht : t ∈ ts) :
    setStatusFirst ts (some (t.id : Int)) st =
      ts.map (fun u => if u.id = t.id then { u with status := st } else u) := by
  induction ts with
  | nil => cases ht
  | cons a rest ih =>
      rw [List.pairwise_cons] at hw
      rcases List.mem_cons.1 ht with rfl | hmem
      · have hpm : pidMatches (some ((t.id : Nat) : Int)) t = true := by
          simp [pidMatches]
        rw [List.map_cons, if_pos rfl]
        have hrest : rest.map (fun u => if u.id = t.id then { u with status := st } else u) =
            rest := by
          rw [List.map_congr_left, List.map_id]
          intro u hu
          exact if_neg fun hcon => (hw.1 u hu) hcon.symm
        rw [hrest]
        simp [setStatusFirst, hpm]
      · have hne : a.id ≠ t.id := hw.1 t hmem
        have hpm : pidMatches (some ((t.id : Nat) : Int)) a = false := by
          simp only [pidMatches, beq_eq_false_iff_ne, ne_eq, Int.natCast_inj]
          exact hne
        rw [List.map_cons, if_neg hne]
        simp only [setStatusFirst, hpm, Bool.false_eq_true, if_false]
        rw [ih hw.2 hmem]

theorem mem_setStatusFirst (ts : List Task) (pid : Option Int) (st : String) :
    ∀ t' ∈ setStatusFirst ts pid st, ∃ t ∈ ts, t.id = t'.id := by
  induction ts with
  | nil => intro t' h; cases h
  | cons a rest ih =>
      intro t' h
      by_cases hpm : pidMatches pid a = true
      · simp only [setStatusFirst, hpm, if_true] at h
        rcases List.mem_cons.1 h with rfl | hmem
        · exact ⟨a, List.mem_cons_self _ _, rfl⟩
        · exact ⟨t', List.mem_cons_of_mem _ hmem, rfl⟩
      · simp only [setStatusFirst, hpm, if_false] at h
        rcases List.mem_cons.1 h with rfl | hmem
        · exact ⟨t', List.mem_cons_self _ _, rfl⟩
        · obtain ⟨t, htmem, htid⟩ := ih t' hmem
          exact ⟨t, List.mem_cons_of_mem _ htmem, htid⟩

/-- C4: an update-status request whose parsed id matches no task returns
404 `TaskNotFound` and changes nothing, for every supplied status value —
the not-found check is decided before the status-validity check. -/
theorem updateTask_notFound_spec (s : ServerState) (idStr status : String)
    (h : ∀ t ∈ s.tasks, parseIntJS idStr ≠ some (t.id : Int)) :
    updateTask s idStr status = (s, { status := 404, body := Body.text "Task not found" }) := by
  have hfind : s.tasks.find? (pidMatches (parseIntJS idStr)) = none := by
    rw [List.find?_eq_none]
    intro t ht hpm
    exact h t ht ((pidMatches_eq_true_iff _ _).1 hpm)
  unfold updateTask
  rw [hfind]

/-- C4 witness: updating a nonexistent id with an out-of-enum status still
reports 404, at concrete inputs. -/
theorem updateTask_notFound_spec_witness :
    updateTask demoState "99" "totallyBogus" =
      (demoState, { status := 404, body := Body.text "Task not found" }) :=
  updateTask_notFound_spec demoState "99" "totallyBogus" (by decide)

/-- C5: updating an existing task with a status outside the enumerated set
returns 400 `InvalidStatus` and leaves the store unchanged; with a status
inside the set it returns 200 and replaces exactly that task's status. -/
theorem updateTask_status_spec (s : ServerState) (t : Task) (idStr status : String)
    (hw : s.tasks.Pairwise (fun a b => a.id ≠ b.id))
    (ht : t ∈ s.tasks)
    (hid : parseIntJS idStr = some (t.id : Int)) :
    (status ∉ validStatuses →
      updateTask s idStr status = (s, { status := 400, body := Body.text "Invalid status" })) ∧
    (status ∈ validStatuses →
      updateTask s idStr status =
        ({ s with tasks := s.tasks.map (fun u => if u.id = t.id then { u with status := status } else u) },
         { status := 200, body := Body.text "Task updated" })) := by
  have hmatch : pidMatches (parseIntJS idStr) t = true := (pidMatches_eq_true_iff _ _).2 hid
  cases hfind : s.tasks.find? (pidMatches (parseIntJS idStr)) with
  | none => exact absurd hmatch (by simpa using List.find?_eq_none.1 hfind t ht)
  | some w =>
      have hcontains : validStatuses.contains status = true ↔ status ∈ validStatuses := by
        simp [List.contains, List.elem_iff]
      constructor
      · intro hnot
        have hcb : validStatuses.contains status = false := by
          cases hcb2 : validStatuses.contains status with
          | false => rfl
          | true => exact absurd (hcontains.1 hcb2) hnot
        unfold updateTask
        rw [hfind, hcb]
        simp
      · intro hyes
        have hcb : validStatuses.contains status = true := hcontains.2 hyes
        unfold updateTask
        rw [hfind, hcb, hid, setStatusFirst_eq_map s.tasks t status hw ht]
        simp

/-- C5 witness: both branches of `updateTask_status_spec` at concrete
inputs — an out-of-enum status is rejected with no change, a legal one
rewrites exactly the targeted task. -/
theorem updateTask_status_spec_witness :
    updateTask demoState "1" "shipped" =
      (demoState, { status := 400, body := Body.text "Invalid status" }) ∧
    updateTask demoState "1" "done" =
      ({ demoState with tasks := demoState.tasks.map (fun u => if u.id = 1 then { u with status := "done" } else u) },
       { status := 200, body := Body.text "Task updated" }) := by
  have h1 := updateTask_status_spec demoState
    { id := 1, username := "alice", task := JSVal.str "buy milk", status := "backlog" }
    "1" "shipped" (by decide) (by decide) (by decide)
  have h2 := updateTask_status_spec demoState
    { id := 1, username := "alice", task := JSVal.str "buy milk", status := "backlog" }
    "1" "done" (by decide) (by decide) (by decide)
  exact ⟨h1.1 (by decide), h2.2 (by decide)⟩

/-- Shared helper: when no task matches the parsed id, deletion filters
nothing and answers 404 with the store unchanged. -/
theorem deleteTask_noMatch (s : ServerState) (idStr : String)
    (h : ∀ t ∈ s.tasks, pidMatches (parseIntJS idStr) t = false) :
    deleteTask s idStr =
      (s, { status := 404, body := Body.text "Task not found or already deleted" }) := by
  have hfil : s.tasks.filter (fun t => !(pidMatches (parseIntJS idStr) t)) = s.tasks :=
    List.filter_eq_self.2 (fun t ht => by rw [h t ht]; rfl)
  unfold deleteTask
  rw [hfil]
  simp

/-- C6: deletion answers 404 `TaskNotFound` exactly when no task carries
the parsed id (store untouched); otherwise it answers 200 with every
matching task removed and the rest kept in order, and a second deletion of
the same id then answers 404. -/
theorem deleteTask_spec (s : ServerState) (n : Int) (idStr : String)
    (hid : parseIntJS idStr = some n) :
    ((∀ t ∈ s.tasks, (t.id : Int) ≠ n) →
      deleteTask s idStr =
        (s, { status := 404, body := Body.text "Task not found or already deleted" })) ∧
    ((∃ t ∈ s.tasks, (t.id : Int) = n) →
      deleteTask s idStr =
        ({ s with tasks := s.tasks.filter (fun t => !((t.id : Int) == n)) },
         { status := 200, body := Body.text "Task deleted" }) ∧
      (deleteTask (deleteTask s idStr).1 idStr).2 =
        { status := 404, body := Body.text "Task not found or already deleted" }) := by
  constructor
  · intro h
    apply deleteTask_noMatch
    intro t ht
    rw [hid]
    simpa [pidMatches] using h t ht
  · rintro ⟨t, ht, htid⟩
    have hlt : (s.tasks.filter (fun u => !(pidMatches (parseIntJS idStr) u))).length <
        s.tasks.length := by
      apply List.length_filter_lt_length_iff_exists.2
      refine ⟨t, ht, ?_⟩
      rw [hid]
      simp [pidMatches, htid]
    have hfirst : deleteTask s idStr =
        ({ s with tasks := s.tasks.filter (fun u => !((u.id : Int) == n)) },
         { status := 200, body := Body.text "Task deleted" }) := by
      unfold deleteTask
      rw [if_neg (by omega)]
      rw [hid]
      rfl
    refine ⟨hfirst, ?_⟩
    rw [hfirst]
    rw [deleteTask_noMatch]
    intro u hu
    have := (List.mem_filter.1 hu).2
    rw [hid]
    simpa [pidMatches] using this

/-- C6 witness: deleting existing task 2 from the demo store succeeds and
removes it, deleting it again answers 404; deleting absent id 9 answers
404 with the store unchanged. -/
theorem deleteTask_spec_witness :
    deleteTask demoState "2" =
      ({ demoState with tasks := demoState.tasks.filter (fun t => !((t.id : Int) == 2)) },
       { status := 200, body := Body.text "Task deleted" }) ∧
    (deleteTask (deleteTask demoState "2").1 "2").2 =
      { status := 404, body := Body.text "Task not found or already deleted" } ∧
    deleteTask demoState "9" =
      (demoState, { status := 404, body := Body.text "Task not found or already deleted" }) := by
  have h2 := (deleteTask_spec demoState 2 "2" (by decide)).2 (by decide)
  have h9 := (deleteTask_spec demoState 9 "9" (by decide)).1 (by decide)
  exact ⟨h2.1, h2.2, h9⟩

/-! Lemmas about `parseInt` on digit-headed strings, for the id-parsing
claim. -/

theorem toList_append (a b : String) : (a ++ b).toList = a.toList ++ b.toList :=
  String.data_append a b

theorem charDigitValue_digit (c : Char) (h : isDigitChar c = true) :
    charDigitValue c = some (c.toNat - 48) ∧ c.toNat - 48 < 10 := by
  rw [isDigitChar, decide_eq_true_eq] at h
  unfold charDigitValue
  rw [if_pos h]
  exact ⟨rfl, by omega⟩

theorem takeDigits_stop (c : Char) (rest : List Char) (acc : Nat) (seen : Bool)
    (h : isDigitChar c = false) :
    takeDigits 10 (c :: rest) acc seen = if seen then some acc else none := by
  rw [isDigitChar, decide_eq_false_iff_not] at h
  cases hcv : charDigitValue c with
  | none => simp [takeDigits, hcv]
  | some d =>
      have hd : 10 ≤ d := by
        unfold charDigitValue at hcv
        rw [if_neg h] at hcv
        split_ifs at hcv with h2 h3
        · cases hcv
          omega
        · cases hcv
          omega
      simp only [takeDigits, hcv]
      rw [if_neg (by omega)]

theorem isJsWhitespace_digit (c : Char) (h : isDigitChar c = true) :
    isJsWhitespace c = false := by
  cases hws : isJsWhitespace c with
  | false => rfl
  | true =>
      exfalso
      simp only [isJsWhitespace, Bool.or_eq_true, beq_iff_eq] at hws
      rcases hws with ((((((rfl | rfl) | rfl) | rfl) | rfl) | rfl) | rfl) | rfl <;>
        exact absurd h (by decide)

theorem digit_ne_special (c : Char) (h : isDigitChar c = true) :
    c ≠ '-' ∧ c ≠ '+' ∧ c ≠ 'x' ∧ c ≠ 'X' := by
  refine ⟨fun hc => ?_, fun hc => ?_, fun hc => ?_, fun hc => ?_⟩ <;>
    (rw [hc] at h; exact absurd h (by decide))

theorem takeDigits_ten_append (dsl rest : List Char) (acc : Nat) (seen : Bool)
    (hds : ∀ c ∈ dsl, isDigitChar c = true)
    (hrest : ∀ c, rest.head? = some c → isDigitChar c = false) :
    takeDigits 10 (dsl ++ rest) acc seen = takeDigits 10 dsl acc seen := by
  induction dsl generalizing acc seen with
  | nil =>
      cases rest with
      | nil => rfl
      | cons c rest' =>
          rw [List.nil_append, takeDigits_stop c rest' acc seen (hrest c rfl)]
          rfl
  | cons c dsl' ih =>
      obtain ⟨hcv, hlt⟩ := charDigitValue_digit c (hds c (List.mem_cons_self _ _))
      simp only [List.cons_append, takeDigits, hcv, if_pos hlt]
      exact ih _ _ (fun x hx => hds x (List.mem_cons_of_mem _ hx))

theorem takeDigits_ten_foldl (dsl : List Char)
    (hds : ∀ c ∈ dsl, isDigitChar c = true) : ∀ acc : Nat,
    takeDigits 10 dsl acc true =
      some (dsl.foldl (fun a c => a * 10 + (c.toNat - 48)) acc) := by
  induction dsl with
  | nil => intro acc; rfl
  | cons c dsl' ih =>
      intro acc
      obtain ⟨hcv, hlt⟩ := charDigitValue_digit c (hds c (List.mem_cons_self _ _))
      simp only [takeDigits, hcv, if_pos hlt, List.foldl_cons]
      exact ih (fun x hx => hds x (List.mem_cons_of_mem _ hx)) _

theorem takeDigits_ten_start (dsl : List Char) (hne : dsl ≠ [])
    (hds : ∀ c ∈ dsl, isDigitChar c = true) :
    takeDigits 10 dsl 0 false =
      some (dsl.foldl (fun a c => a * 10 + (c.toNat - 48)) 0) := by
  cases dsl with
  | nil => exact absurd rfl hne
  | cons c dsl' =>
      obtain ⟨hcv, hlt⟩ := charDigitValue_digit c (hds c (List.mem_cons_self _ _))
      simp only [takeDigits, hcv, if_pos hlt, List.foldl_cons]
      exact takeDigits_ten_foldl dsl' (fun x hx => hds x (List.mem_cons_of_mem _ hx)) _

theorem parseIntList_digits (dsl sufl : List Char)
    (hne : dsl ≠ [])
    (hds : ∀ c ∈ dsl, isDigitChar c = true)
    (hsuf : ∀ c, sufl.head? = some c → isDigitChar c = false)
    (hhex : dsl = ['0'] → ∀ c, sufl.head? = some c → c ≠ 'x' ∧ c ≠ 'X') :
    parseIntList (dsl ++ sufl) =
      some ((dsl.foldl (fun a c => a * 10 + (c.toNat - 48)) 0 : Nat) : Int) := by
  cases dsl with
  | nil => exact absurd rfl hne
  | cons c0 ds' =>
      have hc0 : isDigitChar c0 = true := hds c0 (List.mem_cons_self _ _)
      obtain ⟨hm, hp, _, _⟩ := digit_ne_special c0 hc0
      have hdw : (c0 :: ds' ++ sufl).dropWhile isJsWhitespace = c0 :: (ds' ++ sufl) := by
        rw [List.cons_append, List.dropWhile_cons, isJsWhitespace_digit c0 hc0]
        simp
      unfold parseIntList
      rw [hdw]
      simp only [if_neg hm, if_neg hp]
      have hval : parseUnsigned (c0 :: (ds' ++ sufl)) =
          some ((c0 :: ds').foldl (fun a c => a * 10 + (c.toNat - 48)) 0) := by
        cases hds' : ds' ++ sufl with
        | nil =>
            obtain ⟨hds'nil, hsufnil⟩ := List.append_eq_nil.1 hds'
            subst hds'nil
            unfold parseUnsigned
            exact takeDigits_ten_start [c0] (by simp) (by simpa using hc0)
        | cons c1 rest2 =>
            have hcond : ¬ (c0 = '0' ∧ (c1 = 'x' ∨ c1 = 'X')) := by
              rintro ⟨rfl, hx⟩
              cases ds' with
              | nil =>
                  rw [List.nil_append] at hds'
                  have hh := hhex rfl c1 (by rw [hds']; rfl)
                  rcases hx with rfl | rfl
                  · exact hh.1 rfl
                  · exact hh.2 rfl
              | cons c ds'' =>
                  rw [List.cons_append] at hds'
                  have hc1 : isDigitChar c1 = true := by
                    have : c ∈ ('0' :: c :: ds'') := List.mem_cons_of_mem _ (List.mem_cons_self _ _)
                    have := hds c this
                    cases hds'
                    exact this
                  obtain ⟨_, _, hx1, hx2⟩ := digit_ne_special c1 hc1
                  rcases hx with rfl | rfl
                  · exact hx1 rfl
                  · exact hx2 rfl
            simp only [parseUnsigned]
            rw [if_neg hcond, ← hds']
            rw [show (c0 :: (ds' ++ sufl)) = (c0 :: ds') ++ sufl from rfl]
            rw [takeDigits_ten_append (c0 :: ds') sufl 0 false hds hsuf]
            exact takeDigits_ten_start (c0 :: ds') (by simp) hds
      rw [hval]
      rfl

/-- The handlers that take `:id` depend on the path string only through
`parseInt`. -/
theorem updateTask_parse_congr (s : ServerState) (a b status : String)
    (h : parseIntJS a = parseIntJS b) :
    updateTask s a status = updateTask s b status := by
  unfold updateTask
  rw [h]

theorem deleteTask_parse_congr (s : ServerState) (a b : String)
    (h : parseIntJS a = parseIntJS b) :
    deleteTask s a = deleteTask s b := by
  unfold deleteTask
  rw [h]

/-- A state holding a single task with id 16, exercising the `0x` corner
of `parseInt`. -/
def hexState : ServerState :=
  { users := [],
    tasks := [{ id := 16, username := "alice", task := JSVal.str "x", status := "backlog" }],
    taskId := 17 }

/-- C9 counterexample: the path id string `"0x10"` starts with the digit
`0` followed by non-digit characters, so the claim says the request
operates on (nonexistent) task id 0 exactly as if the suffix were absent —
i.e. as the request `"0"` would, answering 404.  In fact `parseInt`
reads `"0x10"` as hexadecimal 16, so the request updates task 16 and
answers 200, differing from the suffix-stripped request. -/
theorem parse_id_counterexample :
    updateTask hexState "0x10" "done" ≠ updateTask hexState "0" "done" ∧
    updateTask hexState "0x10" "done" =
      ({ hexState with
          tasks := [{ id := 16, username := "alice", task := JSVal.str "x", status := "done" }] },
       { status := 200, body := Body.text "Task updated" }) ∧
    updateTask hexState "0" "done" =
      (hexState, { status := 404, body := Body.text "Task not found" }) := by
  refine ⟨?_, ?_, ?_⟩ <;> decide

/-- C9 amended: an update or delete request whose path id string is one or
more digits followed by non-digit characters operates exactly as if the
suffix were absent, on the integer value of the digit run — except that a
string starting `0x`/`0X` is read as hexadecimal; and a path id string
whose first character is not a digit, not whitespace and not a sign parses
to the NaN sentinel, which matches no task and yields the not-found
result. -/
theorem parse_id_amended_spec (s : ServerState) (ds suffix idStr status : String) :
    ((ds.toList ≠ [] ∧ (∀ c ∈ ds.toList, isDigitChar c = true) ∧
      (∀ c, suffix.toList.head? = some c → isDigitChar c = false) ∧
      (ds.toList = ['0'] → ∀ c, suffix.toList.head? = some c → c ≠ 'x' ∧ c ≠ 'X')) →
      (parseIntJS (ds ++ suffix) = some (digitsToNat ds) ∧
       parseIntJS ds = some (digitsToNat ds) ∧
       updateTask s (ds ++ suffix) status = updateTask s ds status ∧
       deleteTask s (ds ++ suffix) = deleteTask s ds)) ∧
    ((idStr.toList.take 2 = ['0', 'x'] ∨ idStr.toList.take 2 = ['0', 'X']) →
      parseIntJS idStr =
        (takeDigits 16 (idStr.toList.drop 2) 0 false).map (fun n => (n : Int))) ∧
    (parseIntJS idStr = none →
      updateTask s idStr status = (s, { status := 404, body := Body.text "Task not found" }) ∧
      deleteTask s idStr =
        (s, { status := 404, body := Body.text "Task not found or already deleted" })) := by
  refine ⟨?_, ?_, ?_⟩
  · rintro ⟨hne, hds, hsuf, hhex⟩
    have h1 : parseIntJS (ds ++ suffix) = some (digitsToNat ds) := by
      rw [parseIntJS, toList_append]
      exact parseIntList_digits ds.toList suffix.toList hne hds hsuf hhex
    have h2 : parseIntJS ds = some (digitsToNat ds) := by
      rw [parseIntJS]
      have := parseIntList_digits ds.toList [] hne hds (fun c hc => by cases hc)
        (fun _ c hc => by cases hc)
      rw [List.append_nil] at this
      exact this
    exact ⟨h1, h2, updateTask_parse_congr s _ _ status (h1.trans h2.symm),
      deleteTask_parse_congr s _ _ (h1.trans h2.symm)⟩
  · intro hx
    have hsplit : ∃ xc, (xc = 'x' ∨ xc = 'X') ∧ idStr.toList = '0' :: xc :: idStr.toList.drop 2 := by
      rcases hx with hx | hx
      · refine ⟨'x', Or.inl rfl, ?_⟩
        conv_lhs => rw [← List.take_append_drop 2 idStr.toList]
        rw [hx]
        rfl
      · refine ⟨'X', Or.inr rfl, ?_⟩
        conv_lhs => rw [← List.take_append_drop 2 idStr.toList]
        rw [hx]
        rfl
    obtain ⟨xc, hxc, hlist⟩ := hsplit
    rw [parseIntJS, hlist]
    rcases hxc with rfl | rfl <;> rfl
  · intro hnone
    constructor
    · have hfind : s.tasks.find? (pidMatches (parseIntJS idStr)) = none := by
        rw [List.find?_eq_none]
        intro t ht
        rw [hnone]
        simp [pidMatches]
      unfold updateTask
      rw [hfind]
    · rw [deleteTask_noMatch]
      intro t ht
      rw [hnone]
      rfl

/-- C9 amended witness: `"3abc"` behaves as `"3"` on the demo store, a
hex-prefixed string is read as hexadecimal, and a digit-free string is
not-found on both handlers. -/
theorem parse_id_amended_spec_witness :
    parseIntJS ("3" ++ "abc") = some (digitsToNat "3") ∧
    updateTask demoState ("3" ++ "abc") "done" = updateTask demoState "3" "done" ∧
    deleteTask demoState ("3" ++ "abc") = deleteTask demoState "3" ∧
    parseIntJS "0x1f" = (takeDigits 16 ("0x1f".toList.drop 2) 0 false).map (fun n => (n : Int)) ∧
    updateTask demoState "zzz" "done" =
      (demoState, { status := 404, body := Body.text "Task not found" }) := by
  have ha := (parse_id_amended_spec demoState "3" "abc" "0x1f" "done").1
    ⟨by decide, by decide, by decide, by decide⟩
  have hb := (parse_id_amended_spec demoState "3" "abc" "0x1f" "done").2.1 (by decide)
  have hc := (parse_id_amended_spec demoState "3" "abc" "zzz" "done").2.2 (by decide)
  exact ⟨ha.1, ha.2.2.1, ha.2.2.2, hb, hc.1⟩

/-! Lemmas for the description-is-never-inspected claim. -/

/-- Replaces every task description by `f` of it, leaving ids, usernames
and statuses alone. -/
def mapDesc (f : JSVal → JSVal) (s : ServerState) : ServerState :=
  { s with tasks := s.tasks.map (fun t => { t with task := f t.task }) }

/-- Applies `f` to the description payload of a create request, leaving
every other request alone. -/
def mapOpDesc (f : JSVal → JSVal) : Op → Op
  | Op.createTask u v => Op.createTask u (f v)
  | op => op

theorem login_none_eq (verify : String → String → Bool) (s : ServerState)
    (u p : String) (hf : findUser s.users u = none) :
    login verify s u p = (s, { status := 400, body := Body.text "Invalid credentials" }) := by
  unfold login
  rw [hf]

theorem login_some_eq (verify : String → String → Bool) (s : ServerState)
    (u p : String) (w : User) (hf : findUser s.users u = some w) :
    login verify s u p =
      if verify p w.password then
        (s, { status := 200, body := Body.text "Logged in successfully" })
      else
        (s, { status := 400, body := Body.text "Invalid credentials" }) := by
  unfold login
  rw [hf]

theorem mapDesc_users (f : JSVal → JSVal) (s : ServerState) :
    (mapDesc f s).users = s.users := rfl

theorem mapDesc_taskId (f : JSVal → JSVal) (s : ServerState) :
    (mapDesc f s).taskId = s.taskId := rfl

theorem mapDesc_tasks (f : JSVal → JSVal) (s : ServerState) :
    (mapDesc f s).tasks = s.tasks.map (fun t => { t with task := f t.task }) := rfl

theorem pidMatches_desc (pid : Option Int) (f : JSVal → JSVal) (t : Task) :
    pidMatches pid { t with task := f t.task } = pidMatches pid t := by
  cases pid <;> rfl

theorem setStatusFirst_map_desc (ts : List Task) (pid : Option Int) (st : String)
    (f : JSVal → JSVal) :
    setStatusFirst (ts.map (fun t => { t with task := f t.task })) pid st =
      (setStatusFirst ts pid st).map (fun t => { t with task := f t.task }) := by
  induction ts with
  | nil => rfl
  | cons a rest ih =>
      simp only [List.map_cons, setStatusFirst, pidMatches_desc]
      cases hpm : pidMatches pid a with
      | true => simp
      | false => simp [ih]

/-- C10: a create-task request for a registered username succeeds with 201
whatever the description value is — absent (`undef`) or of any type — and
appends it unvalidated; moreover no handler ever inspects a stored
description: transporting every description through an arbitrary function
commutes with every operation and never changes a status code. -/
theorem createTask_unvalidated (hash : String → String) (verify : String → String → Bool)
    (s : ServerState) (username : String) :
    ((∃ u ∈ s.users, u.username = username) →
      ∀ v : JSVal,
        createTask s username v =
          ({ s with
              tasks := s.tasks ++
                [{ id := s.taskId, username := username, task := v, status := "backlog" }],
              taskId := s.taskId + 1 },
           { status := 201, body := Body.text "Task added" })) ∧
    (∀ (f : JSVal → JSVal) (op : Op),
      (step hash verify (mapDesc f s) (mapOpDesc f op)).1 =
        mapDesc f (step hash verify s op).1 ∧
      (step hash verify (mapDesc f s) (mapOpDesc f op)).2.status =
        (step hash verify s op).2.status) := by
  constructor
  · rintro ⟨u, hu, hname⟩ v
    cases hf : findUser s.users username with
    | none => exact absurd hname ((findUser_eq_none_iff _ _).1 hf u hu)
    | some w =>
        unfold createTask
        rw [hf]
  · intro f op
    cases op with
    | register u p =>
        simp only [step, mapOpDesc, register, mapDesc_users]
        cases findUser s.users u with
        | none => exact ⟨rfl, rfl⟩
        | some w => exact ⟨rfl, rfl⟩
    | login u p =>
        simp only [step, mapOpDesc]
        cases hf : findUser s.users u with
        | none =>
            rw [login_none_eq verify (mapDesc f s) u p (by rw [mapDesc_users]; exact hf),
              login_none_eq verify s u p hf]
            exact ⟨rfl, rfl⟩
        | some w =>
            rw [login_some_eq verify (mapDesc f s) u p w (by rw [mapDesc_users]; exact hf),
              login_some_eq verify s u p w hf]
            cases verify p w.password
            · exact ⟨rfl, rfl⟩
            · exact ⟨rfl, rfl⟩
    | createTask u v =>
        simp only [step, mapOpDesc, createTask, mapDesc_users]
        cases findUser s.users u with
        | none => exact ⟨rfl, rfl⟩
        | some w =>
            refine ⟨?_, rfl⟩
            simp [mapDesc, List.map_append]
    | updateTask i st =>
        simp only [step, mapOpDesc, updateTask, mapDesc_tasks]
        have hfind : (s.tasks.map (fun t => { t with task := f t.task })).find?
            (pidMatches (parseIntJS i)) =
            (s.tasks.find? (pidMatches (parseIntJS i))).map
              (fun t => { t with task := f t.task }) := by
          rw [List.find?_map]
          congr 1
        rw [hfind]
        cases hff : s.tasks.find? (pidMatches (parseIntJS i)) with
        | none => exact ⟨rfl, rfl⟩
        | some w =>
            cases validStatuses.contains st with
            | false => exact ⟨rfl, rfl⟩
            | true =>
                refine ⟨?_, rfl⟩
                simp [mapDesc, setStatusFirst_map_desc]
    | deleteTask i =>
        simp only [step, mapOpDesc, deleteTask, mapDesc_tasks]
        have hfil : (s.tasks.map (fun t => { t with task := f t.task })).filter
            (fun t => !(pidMatches (parseIntJS i) t)) =
            (s.tasks.filter (fun t => !(pidMatches (parseIntJS i) t))).map
              (fun t => { t with task := f t.task }) := by
          rw [List.filter_map]
          congr 1
        rw [hfil, List.length_map, List.length_map]
        by_cases hc : (s.tasks.filter (fun t => !(pidMatches (parseIntJS i) t))).length =
            s.tasks.length
        · rw [if_pos hc, if_pos hc]
          exact ⟨rfl, rfl⟩
        · rw [if_neg hc, if_neg hc]
          exact ⟨rfl, rfl⟩
    | listTasks u =>
        simp only [step, mapOpDesc, listTasks, mapDesc_users]
        cases findUser s.users u with
        | none => exact ⟨rfl, rfl⟩
        | some w => exact ⟨rfl, rfl⟩

/-- C10 witness: an absent description (`undef`) is accepted with 201 and
stored as-is; transporting descriptions commutes with a concrete update
request on the demo store. -/
theorem createTask_unvalidated_witness :
    createTask demoState "alice" JSVal.undef =
      ({ demoState with
          tasks := demoState.tasks ++
            [{ id := 3, username := "alice", task := JSVal.undef, status := "backlog" }],
          taskId := 4 },
       { status := 201, body := Body.text "Task added" }) ∧
    (step hashDemo verifyDemo (mapDesc (fun _ => JSVal.nullv) demoState)
        (mapOpDesc (fun _ => JSVal.nullv) (Op.updateTask "1" "done"))).1 =
      mapDesc (fun _ => JSVal.nullv)
        (step hashDemo verifyDemo demoState (Op.updateTask "1" "done")).1 := by
  have h := createTask_unvalidated hashDemo verifyDemo demoState "alice"
  exact ⟨h.1 ⟨{ username := "alice", password := "#pw1" }, by decide, rfl⟩ JSVal.undef,
    (h.2 (fun _ => JSVal.nullv) (Op.updateTask "1" "done")).1⟩

/-! Lemmas for the id-uniqueness invariant over request sequences. -/

theorem step_taskId (hash : String → String) (verify : String → String → Bool)
    (s : ServerState) (op : Op) :
    (step hash verify s op).1.taskId = s.taskId ∨
    (step hash verify s op).1.taskId = s.taskId + 1 := by
  cases op with
  | register u p =>
      simp only [step, register]
      cases findUser s.users u with
      | none => exact Or.inl rfl
      | some w => exact Or.inl rfl
  | login u p =>
      simp only [step]
      cases hf : findUser s.users u with
      | none =>
          rw [login_none_eq verify s u p hf]
          exact Or.inl rfl
      | some w =>
          rw [login_some_eq verify s u p w hf]
          cases verify p w.password
          · exact Or.inl rfl
          · exact Or.inl rfl
  | createTask u v =>
      simp only [step, createTask]
      cases findUser s.users u with
      | none => exact Or.inl rfl
      | some w => exact Or.inr rfl
  | updateTask i st =>
      simp only [step, updateTask]
      cases s.tasks.find? (pidMatches (parseIntJS i)) with
      | none => exact Or.inl rfl
      | some w => cases validStatuses.contains st <;> exact Or.inl rfl
  | deleteTask i =>
      simp only [step, deleteTask]
      split <;> exact Or.inl rfl
  | listTasks u =>
      simp only [step, listTasks]
      cases findUser s.users u with
      | none => exact Or.inl rfl
      | some w => exact Or.inl rfl

theorem run_taskId_le (hash : String → String) (verify : String → String → Bool) :
    ∀ (ops : List Op) (s : ServerState),
    s.taskId ≤ (run hash verify s ops).taskId := by
  intro ops
  induction ops with
  | nil => intro s; exact Nat.le_refl _
  | cons op ops ih =>
      intro s
      have h1 := step_taskId hash verify s op
      have h2 := ih (step hash verify s op).1
      simp only [run]
      rcases h1 with h1 | h1 <;> omega

theorem run_append (hash : String → String) (verify : String → String → Bool) :
    ∀ (l1 l2 : List Op) (s : ServerState),
    run hash verify s (l1 ++ l2) = run hash verify (run hash verify s l1) l2 := by
  intro l1
  induction l1 with
  | nil => intro l2 s; rfl
  | cons op l1 ih =>
      intro l2 s
      simp only [List.cons_append, run]
      exact ih l2 _

theorem assignedIds_eq_range (hash : String → String) (verify : String → String → Bool) :
    ∀ (ops : List Op) (s : ServerState),
    assignedIds hash verify s ops =
      List.range' s.taskId ((run hash verify s ops).taskId - s.taskId) := by
  intro ops
  induction ops with
  | nil =>
      intro s
      simp [assignedIds, run]
  | cons op ops ih =>
      intro s
      have hle := run_taskId_le hash verify ops (step hash verify s op).1
      rcases step_taskId hash verify s op with h1 | h1
      · simp only [assignedIds, run]
        rw [if_neg (by omega), ih, h1]
        simp
      · simp only [assignedIds, run]
        rw [if_pos h1, ih, h1]
        have hcount : (run hash verify (step hash verify s op).1 ops).taskId - s.taskId =
            ((run hash verify (step hash verify s op).1 ops).taskId - (s.taskId + 1)) + 1 := by
          omega
        rw [hcount, List.range'_succ]
        rfl

theorem step_tasks_ids (hash : String → String) (verify : String → String → Bool)
    (s : ServerState) (op : Op) :
    ∀ t' ∈ (step hash verify s op).1.tasks,
      (t'.id = s.taskId ∧ (step hash verify s op).1.taskId = s.taskId + 1) ∨
      ∃ t ∈ s.tasks, t.id = t'.id := by
  cases op with
  | register u p =>
      simp only [step, register]
      cases findUser s.users u with
      | none => exact fun t' ht' => Or.inr ⟨t', ht', rfl⟩
      | some w => exact fun t' ht' => Or.inr ⟨t', ht', rfl⟩
  | login u p =>
      simp only [step]
      cases hf : findUser s.users u with
      | none =>
          rw [login_none_eq verify s u p hf]
          exact fun t' ht' => Or.inr ⟨t', ht', rfl⟩
      | some w =>
          rw [login_some_eq verify s u p w hf]
          cases verify p w.password
          · exact fun t' ht' => Or.inr ⟨t', ht', rfl⟩
          · exact fun t' ht' => Or.inr ⟨t', ht', rfl⟩
  | createTask u v =>
      simp only [step, createTask]
      cases findUser s.users u with
      | none => exact fun t' ht' => Or.inr ⟨t', ht', rfl⟩
      | some w =>
          intro t' ht'
          rcases List.mem_append.1 ht' with h | h
          · exact Or.inr ⟨t', h, rfl⟩
          · rcases List.mem_singleton.1 h with rfl
            exact Or.inl ⟨rfl, rfl⟩
  | updateTask i st =>
      simp only [step, updateTask]
      cases hff : s.tasks.find? (pidMatches (parseIntJS i)) with
      | none => exact fun t' ht' => Or.inr ⟨t', ht', rfl⟩
      | some w =>
          cases validStatuses.contains st with
          | false => exact fun t' ht' => Or.inr ⟨t', ht', rfl⟩
          | true =>
              intro t' ht'
              obtain ⟨t, htm, hid⟩ := mem_setStatusFirst s.tasks _ st t' ht'
              exact Or.inr ⟨t, htm, hid⟩
  | deleteTask i =>
      simp only [step, deleteTask]
      split <;> exact fun t' ht' => Or.inr ⟨t', (List.mem_filter.1 ht').1, rfl⟩
  | listTasks u =>
      simp only [step, listTasks]
      cases findUser s.users u with
      | none => exact fun t' ht' => Or.inr ⟨t', ht', rfl⟩
      | some w => exact fun t' ht' => Or.inr ⟨t', ht', rfl⟩

theorem run_tasks_ids (hash : String → String) (verify : String → String → Bool) :
    ∀ (ops : List Op) (s : ServerState),
    ∀ t ∈ (run hash verify s ops).tasks,
      t.id ∈ assignedIds hash verify s ops ∨ ∃ t₀ ∈ s.tasks, t₀.id = t.id := by
  intro ops
  induction ops with
  | nil => exact fun s t ht => Or.inr ⟨t, ht, rfl⟩
  | cons op ops ih =>
      intro s t ht
      simp only [run] at ht
      rcases ih (step hash verify s op).1 t ht with h | ⟨t₀, ht₀, hid⟩
      · left
        simp only [assignedIds]
        exact List.mem_append.2 (Or.inr h)
      · rcases step_tasks_ids hash verify s op t₀ ht₀ with ⟨hid0, hbump⟩ | ⟨t₁, ht₁, hid1⟩
        · left
          simp only [assignedIds]
          apply List.mem_append.2
          left
          rw [if_pos hbump, ← hid, hid0]
          exact List.mem_singleton.2 rfl
        · exact Or.inr ⟨t₁, ht₁, hid1.trans hid⟩

/-- C3: from the initial state, along any request sequence, the task ids
handed out are exactly the consecutive run starting at 1 up to the final
counter — hence assigned in strictly increasing order, never reused even
across interleaved deletions — the counter never decreases under any
continuation of the sequence, and every currently-held task carries one of
the assigned ids. -/
theorem taskIds_spec (hash : String → String) (verify : String → String → Bool)
    (ops : List Op) :
    assignedIds hash verify initState ops =
      List.range' 1 ((run hash verify initState ops).taskId - 1) ∧
    List.Pairwise (· < ·) (assignedIds hash verify initState ops) ∧
    (∀ more : List Op,
      (run hash verify initState ops).taskId ≤
        (run hash verify initState (ops ++ more)).taskId) ∧
    (∀ t ∈ (run hash verify initState ops).tasks,
      t.id ∈ assignedIds hash verify initState ops) := by
  have hr := assignedIds_eq_range hash verify ops initState
  refine ⟨hr, ?_, ?_, ?_⟩
  · rw [hr]
    exact List.pairwise_lt_range' _ _
  · intro more
    rw [run_append hash verify ops more initState]
    exact run_taskId_le hash verify more _
  · intro t ht
    rcases run_tasks_ids hash verify ops initState t ht with h | ⟨t₀, ht₀, _⟩
    · exact h
    · exact absurd ht₀ (List.not_mem_nil _)

/-- A request sequence interleaving a deletion between creations, for the
closed witness statement. -/
def demoOps : List Op :=
  [Op.register "alice" "pw1", Op.createTask "alice" (JSVal.str "a"),
   Op.createTask "alice" (JSVal.str "b"), Op.deleteTask "1",
   Op.createTask "alice" (JSVal.str "c")]

/-- C3 witness: three creations with a deletion interleaved hand out ids
1, 2, 3 — strictly increasing, the deleted id 1 is not reused — and the
surviving tasks carry assigned ids. -/
theorem taskIds_spec_witness :
    assignedIds hashDemo verifyDemo initState demoOps = [1, 2, 3] ∧
    (run hashDemo verifyDemo initState demoOps).taskId = 4 ∧
    ∀ t ∈ (run hashDemo verifyDemo initState demoOps).tasks, t.id ∈ [1, 2, 3] := by
  have h := taskIds_spec hashDemo verifyDemo demoOps
  have he : assignedIds hashDemo verifyDemo initState demoOps = [1, 2, 3] :=
    h.1.trans (by decide)
  refine ⟨he, by decide, fun t ht => ?_⟩
  have hm := h.2.2.2 t ht
  rwa [he] at hm

end TaskTracker
